import Mathlib

/-!
Shallow embedding of the FaceControl cursor-smoothing pipeline and gesture
state machines (source: the add-on's main script).  JavaScript numbers are
modelled as exact rationals; `Math.sqrt` (whose exact value is irrational in
general) is passed in as an explicit function parameter `sqrtQ` wherever the
source calls it, so that each theorem states exactly which property of the
square root it relies on.  Timestamps (`Date.now()` milliseconds) are
rationals as well.  DOM / WebSocket side effects are modelled as an emitted
command list.
-/

namespace FaceControl

/-- Commands sent to the mouse-control sink over the WebSocket
(`sendMouse`, `sendClick`, `sendDragStart`, `sendDragEnd`). -/
inductive Button
  | left
  | right
deriving DecidableEq, Repr

inductive Cmd
  | moveTo (x y : ℤ)
  | click (button : Button)
  | mousedown
  | mouseup
deriving DecidableEq, Repr

/-- `CONFIG = { screenWidth: 1920, screenHeight: 1080 }` (backendUrl omitted). -/
structure ConfigT where
  screenWidth : ℚ
  screenHeight : ℚ
deriving DecidableEq, Repr

def CONFIG : ConfigT := { screenWidth := 1920, screenHeight := 1080 }

/-- `const RAW_BUFFER_SIZE = 8`. -/
def RAW_BUFFER_SIZE : ℕ := 8

/-- Kalman filter state: `{ estimate, errorEstimate, errorMeasure, q }`;
`estimate` starts as `null`, modelled as `Option ℚ`. -/
structure KalmanState where
  estimate : Option ℚ
  errorEstimate : ℚ
  errorMeasure : ℚ
  q : ℚ
deriving DecidableEq, Repr

/-- Module-initialization value of `kalmanX` / `kalmanY`:
`{ estimate: null, errorEstimate: 1, errorMeasure: 0.05, q: 0.005 }`. -/
def initKalman : KalmanState :=
  { estimate := none, errorEstimate := 1, errorMeasure := 1/20, q := 1/200 }

/-- `SMOOTH_CONFIG` tunables. -/
structure SmoothConfigT where
  baseSmoothFactor : ℚ
  velocityInfluence : ℚ
  maxSmoothFactor : ℚ
  minSmoothFactor : ℚ
  jitterThreshold : ℚ
  deadZone : ℚ
  outputLerp : ℚ
  bezierFactor : ℚ
deriving DecidableEq, Repr

def SMOOTH_CONFIG : SmoothConfigT :=
  { baseSmoothFactor := 3/50     -- 0.06
    velocityInfluence := 1/500   -- 0.002
    maxSmoothFactor := 1/5       -- 0.20
    minSmoothFactor := 1/50      -- 0.02
    jitterThreshold := 5
    deadZone := 1/125            -- 0.008
    outputLerp := 1/10           -- 0.1
    bezierFactor := 3/10 }       -- 0.3

/-- `const UPDATE_INTERVAL = 8` (ms). -/
def UPDATE_INTERVAL : ℚ := 8

-- ---- Helper functions for smoothing (translated one-to-one) ----

/-- `kalmanFilter(measurement, state)`: returns the filtered value together
with the mutated state (the source mutates `state` in place). -/
def kalmanFilter (measurement : ℚ) (state : KalmanState) : ℚ × KalmanState :=
  match state.estimate with
  | none => (measurement, { state with estimate := some measurement })
  | some est =>
      -- Prediction update
      let errorEstimate := state.errorEstimate + state.q
      -- Kalman gain
      let gain := errorEstimate / (errorEstimate + state.errorMeasure)
      -- Update estimate
      let estimate := est + gain * (measurement - est)
      -- Update error estimate
      (estimate,
        { state with
            estimate := some estimate
            errorEstimate := (1 - gain) * errorEstimate })

/-- `getMedian(arr)`: median of a sorted copy; `0` on the empty array;
for even length, the average of the two middle elements. -/
def getMedian (arr : List ℚ) : ℚ :=
  if arr.length = 0 then 0
  else
    let sorted := arr.insertionSort (· ≤ ·)
    let mid := sorted.length / 2
    if sorted.length % 2 = 1 then sorted.getD mid 0
    else (sorted.getD (mid - 1) 0 + sorted.getD mid 0) / 2

/-- `addToBuffer(buffer, value, maxSize)`: push, then `shift()` (drop the
oldest, i.e. the head) when over capacity. -/
def addToBuffer (buffer : List ℚ) (value : ℚ) (maxSize : ℕ) : List ℚ :=
  let buffer := buffer ++ [value]
  if buffer.length > maxSize then buffer.tail else buffer

/-- `calculateAdaptiveSmoothFactor(vx, vy)`; `Math.sqrt` passed as `sqrtQ`. -/
def calculateAdaptiveSmoothFactor (sqrtQ : ℚ → ℚ) (vx vy : ℚ) : ℚ :=
  let velocity := sqrtQ (vx * vx + vy * vy)
  let factor := SMOOTH_CONFIG.baseSmoothFactor + velocity * SMOOTH_CONFIG.velocityInfluence
  max SMOOTH_CONFIG.minSmoothFactor (min SMOOTH_CONFIG.maxSmoothFactor factor)

/-- `lerp(start, end, factor)`. -/
def lerp (p0 p1 factor : ℚ) : ℚ :=
  p0 + (p1 - p0) * factor

/-- `bezierInterpolate(p0, p1, p2, t)`: quadratic Bezier. -/
def bezierInterpolate (p0 p1 p2 t : ℚ) : ℚ :=
  (1 - t) * (1 - t) * p0 + 2 * (1 - t) * t * p1 + t * t * p2

-- ---- Global mutable state ----

/-- All module-level mutable variables together with the fields of the
`state` object that the pipeline and gesture detectors read or write. -/
structure AppState where
  rawBufferX : List ℚ
  rawBufferY : List ℚ
  kalmanX : KalmanState
  kalmanY : KalmanState
  velocityX : ℚ
  velocityY : ℚ
  lastTargetX : Option ℚ
  lastTargetY : Option ℚ
  lastTargetTime : ℚ
  smoothX : Option ℚ
  smoothY : Option ℚ
  outputX : Option ℚ
  outputY : Option ℚ
  lastSentX : ℚ
  lastSentY : ℚ
  lastMouseUpdate : ℚ
  isRunning : Bool
  isCalibrated : Bool
  calibrationNose : Option (ℚ × ℚ)
  currentNose : ℚ × ℚ
  lastLeftClick : ℚ
  lastRightClick : ℚ
  clickCount : ℕ
  isDragging : Bool
  sensitivity : ℚ
  leftEyeOpen : Bool
  rightEyeOpen : Bool
  winkCooldown : ℚ
deriving DecidableEq, Repr

/-- State at module initialization: the smoothing globals and the literal
fields of the `state` object (`currentNose: { x: 0.5, y: 0.5 }`,
`sensitivity: 1.5`, `winkCooldown: 600`, ...). -/
def initialState : AppState :=
  { rawBufferX := []
    rawBufferY := []
    kalmanX := initKalman
    kalmanY := initKalman
    velocityX := 0
    velocityY := 0
    lastTargetX := none
    lastTargetY := none
    lastTargetTime := 0
    smoothX := none
    smoothY := none
    outputX := none
    outputY := none
    lastSentX := 0
    lastSentY := 0
    lastMouseUpdate := 0
    isRunning := false
    isCalibrated := false
    calibrationNose := none
    currentNose := (1/2, 1/2)
    lastLeftClick := 0
    lastRightClick := 0
    clickCount := 0
    isDragging := false
    sensitivity := 3/2
    leftEyeOpen := true
    rightEyeOpen := true
    winkCooldown := 600 }

/-- `stopTracking()`: the state mutations only (DOM and camera shutdown
omitted).  Resets the smoothing globals and the calibration flags; note it
re-creates the Kalman states with `errorMeasure: 0.1, q: 0.01`. -/
def stopTracking (s : AppState) : AppState :=
  { s with
      isRunning := false
      isCalibrated := false
      calibrationNose := none
      smoothX := none
      smoothY := none
      outputX := none
      outputY := none
      rawBufferX := []
      rawBufferY := []
      velocityX := 0
      velocityY := 0
      lastTargetX := none
      lastTargetY := none
      lastTargetTime := 0
      kalmanX := { estimate := none, errorEstimate := 1, errorMeasure := 1/10, q := 1/100 }
      kalmanY := { estimate := none, errorEstimate := 1, errorMeasure := 1/10, q := 1/100 } }

/-- The completion block of `calibrate()` (the body that runs when the
3-second countdown reaches zero): captures `state.currentNose` as the
calibration reference, sets `isCalibrated`, resets the smoothing pipeline
to screen center and sends the cursor to center.  `now` is `Date.now()`. -/
def calibrateFinish (now : ℚ) (s : AppState) : AppState × List Cmd :=
  let centerX := CONFIG.screenWidth / 2
  let centerY := CONFIG.screenHeight / 2
  ({ s with
      calibrationNose := some s.currentNose
      isCalibrated := true
      smoothX := some centerX
      smoothY := some centerY
      outputX := some centerX
      outputY := some centerY
      lastSentX := centerX
      lastSentY := centerY
      rawBufferX := []
      rawBufferY := []
      velocityX := 0
      velocityY := 0
      lastTargetX := some centerX
      lastTargetY := some centerY
      lastTargetTime := now
      kalmanX := { estimate := some centerX, errorEstimate := 1, errorMeasure := 1/10, q := 1/100 }
      kalmanY := { estimate := some centerY, errorEstimate := 1, errorMeasure := 1/10, q := 1/100 } },
   [Cmd.moveTo 960 540])

-- ---- Wink detection (decision logic of `detectWinks`) ----

/-- `const winkThreshold = 0.15` (eye is closed if EAR below this). -/
def winkThreshold : ℚ := 3/20

/-- `const openThreshold = 0.2` (eye is open if EAR above this). -/
def openThreshold : ℚ := 1/5

/-- `const wideOpenThreshold = 0.35` (computed but unused downstream). -/
def wideOpenThreshold : ℚ := 7/20

/-- First if-block of `detectWinks`: left wink (left eye closes while the
right stays open, from a previously-open latched state), gated by the
per-side cooldown.  `leftClosed = leftEAR < winkThreshold`,
`rightOpen = rightEAR > openThreshold`. -/
def leftWinkStep (leftEAR rightEAR now : ℚ) (s : AppState) : AppState × List Cmd :=
  if (leftEAR < winkThreshold ∧ openThreshold < rightEAR) ∧ s.leftEyeOpen then
    if now - s.lastLeftClick > s.winkCooldown then
      ({ s with lastLeftClick := now, clickCount := s.clickCount + 1 },
       [Cmd.click Button.left])
    else (s, [])
  else (s, [])

/-- Second if-block of `detectWinks`: right wink, symmetric to the left. -/
def rightWinkStep (leftEAR rightEAR now : ℚ) (s : AppState) : AppState × List Cmd :=
  if (rightEAR < winkThreshold ∧ openThreshold < leftEAR) ∧ s.rightEyeOpen then
    if now - s.lastRightClick > s.winkCooldown then
      ({ s with lastRightClick := now, clickCount := s.clickCount + 1 },
       [Cmd.click Button.right])
    else (s, [])
  else (s, [])

/-- `detectWinks(landmarks)`, taking the two eye-aspect ratios as inputs
(the source derives them from the landmark frame via `getEyeAspectRatio`,
whose square roots are upstream of the decision logic modelled here) plus
`now = Date.now()`.  Runs the two wink blocks in order, then latches the
per-eye open state.  Returns the updated state and emitted click commands. -/
def detectWinks (leftEAR rightEAR now : ℚ) (s : AppState) : AppState × List Cmd :=
  let r1 := leftWinkStep leftEAR rightEAR now s
  let r2 := rightWinkStep leftEAR rightEAR now r1.1
  -- Update eye state
  ({ r2.1 with
      leftEyeOpen := decide (openThreshold < leftEAR)
      rightEyeOpen := decide (openThreshold < rightEAR) },
   r1.2 ++ r2.2)

-- ---- Cursor mapping and the 4-layer smoothing pipeline (`moveCursor`) ----

/-- Dead-zone block of `moveCursor` (the `if (distance < deadZone)` branch):
given the raw offset and the computed `distance`, returns
`(adjustedDx, adjustedDy)`. -/
def deadZoneAdjust (dx dy distance : ℚ) : ℚ × ℚ :=
  if distance < SMOOTH_CONFIG.deadZone then (0, 0)
  else
    -- Gradual dead zone - smooth transition from dead zone
    let deadZoneMultiplier := max 0 (distance - SMOOTH_CONFIG.deadZone) / distance
    (dx * deadZoneMultiplier, dy * deadZoneMultiplier)

/-- Cursor-mapping half of `moveCursor`: offset from the calibration
reference, dead zone, sensitivity and aspect scaling, screen-center
translation and clamping.  Returns the clamped `(rawTargetX, rawTargetY)`. -/
def computeRawTarget (sqrtQ : ℚ → ℚ) (sens : ℚ) (calib nose : ℚ × ℚ) : ℚ × ℚ :=
  let dx := nose.1 - calib.1
  let dy := nose.2 - calib.2
  let distance := sqrtQ (dx * dx + dy * dy)
  let adjusted := deadZoneAdjust dx dy distance
  let baseScale := min CONFIG.screenWidth CONFIG.screenHeight
  let sensitivityMultiplier := sens * (5/2)
  let moveX := -adjusted.1 * baseScale * sensitivityMultiplier
  let moveY := adjusted.2 * baseScale * sensitivityMultiplier
  let cameraAspect : ℚ := 640 / 480
  let screenAspect : ℚ := CONFIG.screenWidth / CONFIG.screenHeight
  let aspectCompensation := screenAspect / cameraAspect
  let finalMoveX := moveX * aspectCompensation
  let finalMoveY := moveY
  let centerX := CONFIG.screenWidth / 2
  let centerY := CONFIG.screenHeight / 2
  (max 0 (min (CONFIG.screenWidth - 1) (centerX + finalMoveX)),
   max 0 (min (CONFIG.screenHeight - 1) (centerY + finalMoveY)))

/-- Lines of `moveCursor` from the offset computation through the Bezier
stage: cursor mapping, clamping, median buffer, Kalman, velocity, adaptive
exponential smoothing and Bezier interpolation.  Returns the state with all
filter fields updated together with the new `(outputX, outputY)` pair. -/
def pipelineOutput (sqrtQ : ℚ → ℚ) (now : ℚ) (nose : ℚ × ℚ) (s : AppState) :
    AppState × ℚ × ℚ :=
  let calib := s.calibrationNose.getD (0, 0)  -- caller guarantees non-null
  let rawTarget := computeRawTarget sqrtQ s.sensitivity calib nose
  -- Layer 1: median buffer
  let rawBufferX := addToBuffer s.rawBufferX rawTarget.1 RAW_BUFFER_SIZE
  let rawBufferY := addToBuffer s.rawBufferY rawTarget.2 RAW_BUFFER_SIZE
  let medianX := getMedian rawBufferX
  let medianY := getMedian rawBufferY
  -- Layer 2: Kalman filter
  let kfX := kalmanFilter medianX s.kalmanX
  let kfY := kalmanFilter medianY s.kalmanY
  -- Layer 3: velocity (guard tests `lastTargetX !== null && lastTargetTime > 0`;
  -- `lastTargetY` is read unchecked in the source, modelled by `getD 0`)
  let vel : ℚ × ℚ :=
    match s.lastTargetX with
    | some ltx =>
        if s.lastTargetTime > 0 then
          let dt := (now - s.lastTargetTime) / 1000
          if dt > 0 then
            (lerp s.velocityX ((kfX.1 - ltx) / dt) (3/10),
             lerp s.velocityY ((kfY.1 - s.lastTargetY.getD 0) / dt) (3/10))
          else (s.velocityX, s.velocityY)
        else (s.velocityX, s.velocityY)
    | none => (s.velocityX, s.velocityY)
  let adaptiveFactor := calculateAdaptiveSmoothFactor sqrtQ vel.1 vel.2
  -- initialize smooth position (sets all four when `smoothX === null`)
  let init4 :
      ℚ × ℚ × Option ℚ × Option ℚ :=
    match s.smoothX with
    | none => (kfX.1, kfY.1, some kfX.1, some kfY.1)
    | some sx => (sx, s.smoothY.getD 0, s.outputX, s.outputY)
  let smoothX := init4.1 + (kfX.1 - init4.1) * adaptiveFactor
  let smoothY := init4.2.1 + (kfY.1 - init4.2.1) * adaptiveFactor
  -- Layer 4: Bezier interpolation (second null check on `outputX`)
  let outPair : ℚ × ℚ :=
    match init4.2.2.1 with
    | none => (smoothX, smoothY)
    | some ox => (ox, init4.2.2.2.getD 0)
  let controlX := (outPair.1 + smoothX) / 2 + vel.1 * SMOOTH_CONFIG.bezierFactor
  let controlY := (outPair.2 + smoothY) / 2 + vel.2 * SMOOTH_CONFIG.bezierFactor
  let outputX := bezierInterpolate outPair.1 controlX smoothX SMOOTH_CONFIG.outputLerp
  let outputY := bezierInterpolate outPair.2 controlY smoothY SMOOTH_CONFIG.outputLerp
  ({ s with
      rawBufferX := rawBufferX
      rawBufferY := rawBufferY
      kalmanX := kfX.2
      kalmanY := kfY.2
      velocityX := vel.1
      velocityY := vel.2
      lastTargetX := some kfX.1
      lastTargetY := some kfY.1
      lastTargetTime := now
      smoothX := some smoothX
      smoothY := some smoothY
      outputX := some outputX
      outputY := some outputY },
   (outputX, outputY))

/-- `moveCursor(nose, mouthOpen)`: smoothing pipeline, then throttled and
jitter-filtered dispatch to the mouse sink, then the mouth-open drag state
machine.  `now = Date.now()`. -/
def moveCursor (sqrtQ : ℚ → ℚ) (now : ℚ) (nose : ℚ × ℚ) (mouthOpen : ℚ)
    (s : AppState) : AppState × List Cmd :=
  let po := pipelineOutput sqrtQ now nose s
  let s1 := po.1
  let outputX := po.2.1
  let outputY := po.2.2
  -- Jitter filter - only move if above threshold
  let movementDistance :=
    sqrtQ ((outputX - s.lastSentX) * (outputX - s.lastSentX) +
           (outputY - s.lastSentY) * (outputY - s.lastSentY))
  let finalX : ℤ := round outputX
  let finalY : ℤ := round outputY
  -- Send mouse update (throttled + jitter filtered)
  let send3 : ℚ × ℚ × ℚ × List Cmd :=
    if now - s.lastMouseUpdate ≥ UPDATE_INTERVAL then
      if movementDistance ≥ SMOOTH_CONFIG.jitterThreshold ∨
          now - s.lastMouseUpdate > 100 then
        ((finalX : ℚ), (finalY : ℚ), now, [Cmd.moveTo finalX finalY])
      else (s.lastSentX, s.lastSentY, now, [])
    else (s.lastSentX, s.lastSentY, s.lastMouseUpdate, [])
  -- MOUTH OPEN = DRAG MODE (threshold 15)
  let drag3 : Bool × ℕ × List Cmd :=
    if mouthOpen > 15 then
      if !s.isDragging then (true, s.clickCount, [Cmd.mousedown])
      else (s.isDragging, s.clickCount, [])
    else
      if s.isDragging then (false, s.clickCount + 1, [Cmd.mouseup])
      else (s.isDragging, s.clickCount, [])
  ({ s1 with
      lastSentX := send3.1
      lastSentY := send3.2.1
      lastMouseUpdate := send3.2.2.1
      isDragging := drag3.1
      clickCount := drag3.2.1 },
   send3.2.2.2 ++ drag3.2.2)

-- ---- Frame runs (repeated invocation of the per-frame handlers) ----

/-- One landmark frame as seen by `moveCursor`: `(now, nose, mouthOpen)`. -/
abbrev Frame := ℚ × (ℚ × ℚ) × ℚ

/-- Process a list of frames through `moveCursor`, collecting per-frame
timestamps and emitted commands. -/
def processTrace (sqrtQ : ℚ → ℚ) (frames : List Frame) (s : AppState) :
    AppState × List (ℚ × List Cmd) :=
  match frames with
  | [] => (s, [])
  | (now, nose, mouthOpen) :: rest =>
      let r := moveCursor sqrtQ now nose mouthOpen s
      let rec1 := processTrace sqrtQ rest r.1
      (rec1.1, (now, r.2) :: rec1.2)

/-- One gesture frame as seen by `detectWinks`: `(leftEAR, rightEAR, now)`. -/
abbrev WinkFrame := ℚ × ℚ × ℚ

/-- Process a list of EAR frames through `detectWinks`, collecting per-frame
timestamps and emitted commands. -/
def winkTrace (frames : List WinkFrame) (s : AppState) :
    AppState × List (ℚ × List Cmd) :=
  match frames with
  | [] => (s, [])
  | (lear, rear, now) :: rest =>
      let r := detectWinks lear rear now s
      let rec1 := winkTrace rest r.1
      (rec1.1, (now, r.2) :: rec1.2)

-- ---- Observation helpers on emitted command traces ----

/-- Is this a `moveTo` dispatch? -/
def isMoveCmd : Cmd → Bool
  | Cmd.moveTo _ _ => true
  | _ => false

/-- Is this a drag (`mousedown` / `mouseup`) command? -/
def isDragCmd : Cmd → Bool
  | Cmd.mousedown => true
  | Cmd.mouseup => true
  | _ => false

/-- Is this a left-button click command? -/
def isLeftClickCmd : Cmd → Bool
  | Cmd.click Button.left => true
  | _ => false

/-- Timestamps of the trace entries whose command list contains a command
satisfying `p`, in trace order. -/
def cmdTimes (p : Cmd → Bool) (trace : List (ℚ × List Cmd)) : List ℚ :=
  (trace.filter (fun e => e.2.any p)).map Prod.fst

/-- All drag commands of a trace, in emission order. -/
def dragCmds (trace : List (ℚ × List Cmd)) : List Cmd :=
  (trace.map Prod.snd).flatten.filter isDragCmd

/-- Strict mousedown/mouseup alternation checker: from drag flag `d`, a
`mousedown` is legal only when the flag is off and a `mouseup` only when it
is on. -/
def altChk : Bool → List Cmd → Bool
  | _, [] => true
  | false, Cmd.mousedown :: rest => altChk true rest
  | true, Cmd.mouseup :: rest => altChk false rest
  | _, _ => false

/-- Radial profile of the dead zone: the output offset magnitude produced by
`deadZoneAdjust` for an input offset of magnitude `d` (see
`deadZone_boundary_spec` for the link to `deadZoneAdjust`). -/
def deadZoneOutMagnitude (d : ℚ) : ℚ :=
  if d < SMOOTH_CONFIG.deadZone then 0
  else d * (max 0 (d - SMOOTH_CONFIG.deadZone) / d)

/-- Screen-center baseline invariant used for the post-calibration
stability analysis: every pipeline value sits at screen center
`(960, 540)`, the calibration reference is `n0`, and no drag is active. -/
def CenteredAt (n0 : ℚ × ℚ) (s : AppState) : Prop :=
  (∀ x ∈ s.rawBufferX, x = 960) ∧ (∀ y ∈ s.rawBufferY, y = 540) ∧
  s.kalmanX.estimate = some 960 ∧ s.kalmanY.estimate = some 540 ∧
  s.velocityX = 0 ∧ s.velocityY = 0 ∧
  s.lastTargetX = some 960 ∧ s.lastTargetY = some 540 ∧
  s.smoothX = some 960 ∧ s.smoothY = some 540 ∧
  s.outputX = some 960 ∧ s.outputY = some 540 ∧
  s.lastSentX = 960 ∧ s.lastSentY = 540 ∧
  s.calibrationNose = some n0 ∧ s.isDragging = false

end FaceControl

namespace FaceControl

/-! ## Theorems -/

/-- C1: the completion of `calibrate()` performs no face-presence check: run
from the module-initial state, in which no face has ever been detected (so
`state.currentNose` still holds its literal default `{x: 0.5, y: 0.5}`), it
still captures that default as the calibration reference and enters the
calibrated state, contradicting the spec requirement that such a calibration
be rejected or a no-op. -/
theorem calibrate_without_face_still_calibrates (now : ℚ) :
    initialState.calibrationNose = none ∧
    (calibrateFinish now initialState).1.isCalibrated = true ∧
    (calibrateFinish now initialState).1.calibrationNose = some (1/2, 1/2) :=
  ⟨rfl, rfl, rfl⟩

/-- C2: `stopTracking()` resets the smoothing pipeline but leaves every
gesture field untouched: the drag-active flag, the per-eye open/closed
latches and the per-side click cooldown timestamps all survive a stop, so
the spec's requirement that all GestureState be reset is violated
(in particular a stop during an active drag leaves `isDragging = true`). -/
theorem stopTracking_keeps_gesture_state (s : AppState) :
    (stopTracking s).isDragging = s.isDragging ∧
    (stopTracking s).leftEyeOpen = s.leftEyeOpen ∧
    (stopTracking s).rightEyeOpen = s.rightEyeOpen ∧
    (stopTracking s).lastLeftClick = s.lastLeftClick ∧
    (stopTracking s).lastRightClick = s.lastRightClick ∧
    (stopTracking { initialState with isDragging := true }).isDragging = true :=
  ⟨rfl, rfl, rfl, rfl, rfl, rfl⟩

/-- C9: `kalmanFilter` seeds a fresh state (estimate `null`) with the first
measurement unchanged, leaving the error estimate alone; on an initialized
state it performs the predict/gain/update/error steps exactly as written in
the source. -/
theorem kalmanFilter_spec (m : ℚ) (s : KalmanState) :
    (s.estimate = none →
      kalmanFilter m s = (m, { s with estimate := some m })) ∧
    (∀ est, s.estimate = some est →
      kalmanFilter m s =
        (est + (s.errorEstimate + s.q) / (s.errorEstimate + s.q + s.errorMeasure) * (m - est),
         { s with
             estimate := some (est + (s.errorEstimate + s.q) /
               (s.errorEstimate + s.q + s.errorMeasure) * (m - est))
             errorEstimate := (1 - (s.errorEstimate + s.q) /
               (s.errorEstimate + s.q + s.errorMeasure)) * (s.errorEstimate + s.q) })) := by
  constructor
  · intro h
    simp [kalmanFilter, h]
  · intro est h
    simp [kalmanFilter, h]

/-- Witness for C9 at concrete inputs: seeding with `7`, and one full update
step from estimate `4`, measurement `8` with the post-stop noise parameters. -/
theorem kalmanFilter_spec_witness :
    kalmanFilter 7 initKalman = (7, { initKalman with estimate := some 7 }) ∧
    kalmanFilter 8 ⟨some 4, 1, 1/10, 1/100⟩ =
      (848/111, ⟨some (848/111), 101/1110, 1/10, 1/100⟩) := by
  constructor
  · exact (kalmanFilter_spec 7 initKalman).1 rfl
  · have h := (kalmanFilter_spec 8 ⟨some 4, 1, 1/10, 1/100⟩).2 4 rfl
    rw [h]
    norm_num

/-- C10: the module-initialization Kalman parameters are
`errorMeasure = 0.05, q = 0.005`, while both `stopTracking()` and the
completion of `calibrate()` re-create the filters with
`errorMeasure = 0.1, q = 0.01` — twice the fresh-session noise values. -/
theorem kalman_reinit_params_differ (s : AppState) (now : ℚ) :
    initialState.kalmanX.errorMeasure = 1/20 ∧ initialState.kalmanX.q = 1/200 ∧
    initialState.kalmanY.errorMeasure = 1/20 ∧ initialState.kalmanY.q = 1/200 ∧
    (stopTracking s).kalmanX.errorMeasure = 1/10 ∧ (stopTracking s).kalmanX.q = 1/100 ∧
    (stopTracking s).kalmanY.errorMeasure = 1/10 ∧ (stopTracking s).kalmanY.q = 1/100 ∧
    (calibrateFinish now s).1.kalmanX.errorMeasure = 1/10 ∧
    (calibrateFinish now s).1.kalmanX.q = 1/100 ∧
    (calibrateFinish now s).1.kalmanY.errorMeasure = 1/10 ∧
    (calibrateFinish now s).1.kalmanY.q = 1/100 ∧
    (1/10 : ℚ) ≠ 1/20 ∧ (1/100 : ℚ) ≠ 1/200 := by
  refine ⟨rfl, rfl, rfl, rfl, rfl, rfl, rfl, rfl, rfl, rfl, rfl, rfl, ?_, ?_⟩ <;> norm_num

/-- Inserting into a buffer never grows it beyond the capacity bound. -/
theorem addToBuffer_length_le (b : List ℚ) (v : ℚ) (n : ℕ) (h : b.length ≤ n) :
    (addToBuffer b v n).length ≤ n := by
  unfold addToBuffer
  by_cases hgt : (b ++ [v]).length > n
  · rw [if_pos hgt]
    simp
    exact h
  · rw [if_neg hgt]
    simp only [List.length_append, List.length_singleton] at hgt ⊢
    omega

/-- Folding any insertion sequence into a buffer keeps it within capacity. -/
theorem foldl_addToBuffer_length (vals : List ℚ) (b : List ℚ) (n : ℕ)
    (h : b.length ≤ n) :
    (vals.foldl (fun acc v => addToBuffer acc v n) b).length ≤ n := by
  induction vals generalizing b with
  | nil => simpa using h
  | cons v rest ih => exact ih _ (addToBuffer_length_le b v n h)

/-- C8: for any insertion sequence the raw buffer holds at most
`RAW_BUFFER_SIZE = 8` elements; a full buffer evicts its oldest (head)
element; and `getMedian` returns the textbook median — characterized
against an arbitrary sorted permutation of the contents: the middle element
for odd length, the average of the two middle elements for even length. -/
theorem rawBuffer_median_spec :
    (∀ vals : List ℚ,
      (vals.foldl (fun b v => addToBuffer b v RAW_BUFFER_SIZE) []).length ≤
        RAW_BUFFER_SIZE) ∧
    (∀ (b : List ℚ) (v : ℚ), b.length = RAW_BUFFER_SIZE →
      addToBuffer b v RAW_BUFFER_SIZE = b.tail ++ [v]) ∧
    (∀ (l srt : List ℚ), l ≠ [] → srt.Perm l → srt.Sorted (· ≤ ·) →
      getMedian l =
        if l.length % 2 = 1 then srt.getD (l.length / 2) 0
        else (srt.getD (l.length / 2 - 1) 0 + srt.getD (l.length / 2) 0) / 2) := by
  refine ⟨fun vals => foldl_addToBuffer_length vals [] _ (by simp), ?_, ?_⟩
  · intro b v hlen
    unfold addToBuffer
    rw [if_pos (by simp [hlen, RAW_BUFFER_SIZE])]
    cases b with
    | nil => simp [RAW_BUFFER_SIZE] at hlen
    | cons a t => simp
  · intro l srt hne hperm hsorted
    have hsl : l.insertionSort (· ≤ ·) = srt :=
      List.eq_of_perm_of_sorted ((List.perm_insertionSort _ l).trans hperm.symm)
        (List.sorted_insertionSort _ l) hsorted
    have hlen0 : ¬ l.length = 0 := by simpa [List.length_eq_zero] using hne
    simp only [getMedian, if_neg hlen0, hsl, hperm.length_eq]

/-- Witness for C8: median of `[3,1,2]` against its sorted permutation
`[1,2,3]`, and eviction on a full 8-element buffer. -/
theorem rawBuffer_median_spec_witness :
    getMedian [3, 1, 2] =
      (if ([3, 1, 2] : List ℚ).length % 2 = 1 then
        ([1, 2, 3] : List ℚ).getD (([3, 1, 2] : List ℚ).length / 2) 0
       else (([1, 2, 3] : List ℚ).getD (([3, 1, 2] : List ℚ).length / 2 - 1) 0 +
         ([1, 2, 3] : List ℚ).getD (([3, 1, 2] : List ℚ).length / 2) 0) / 2) ∧
    addToBuffer [1, 2, 3, 4, 5, 6, 7, 8] 9 RAW_BUFFER_SIZE =
      ([1, 2, 3, 4, 5, 6, 7, 8] : List ℚ).tail ++ [9] :=
  ⟨rawBuffer_median_spec.2.2 [3, 1, 2] [1, 2, 3] (by decide) (by decide) (by decide),
   rawBuffer_median_spec.2.1 [1, 2, 3, 4, 5, 6, 7, 8] 9 rfl⟩

/-- The dead-zone output magnitude is `max 0 (d − deadZone)` everywhere. -/
theorem deadZoneOutMagnitude_eq_max (d : ℚ) :
    deadZoneOutMagnitude d = max 0 (d - SMOOTH_CONFIG.deadZone) := by
  unfold deadZoneOutMagnitude
  by_cases hlt : d < SMOOTH_CONFIG.deadZone
  · rw [if_pos hlt]
    exact (max_eq_left (by linarith)).symm
  · rw [if_neg hlt]
    have hdz : (0 : ℚ) < SMOOTH_CONFIG.deadZone := by norm_num [SMOOTH_CONFIG]
    have hne : d ≠ 0 := by
      intro h
      exact hlt (by rw [h]; exact hdz)
    rw [mul_comm, div_mul_cancel₀ _ hne]

/-- C7: the dead zone maps offsets strictly inside the radius to `(0,0)`,
scales other offsets by `(distance − deadZone)/distance`, sends an offset of
magnitude exactly `deadZone` to output magnitude `0`, transforms input
magnitude `d` to output magnitude `deadZoneOutMagnitude d = max 0 (d −
deadZone)`, and that radial output map is continuous (so in particular there
is no jump on either side of the boundary). -/
theorem deadZone_boundary_spec :
    (∀ dx dy d : ℚ, d < SMOOTH_CONFIG.deadZone → deadZoneAdjust dx dy d = (0, 0)) ∧
    (∀ dx dy d : ℚ, SMOOTH_CONFIG.deadZone ≤ d →
      deadZoneAdjust dx dy d =
        (dx * ((d - SMOOTH_CONFIG.deadZone) / d),
         dy * ((d - SMOOTH_CONFIG.deadZone) / d))) ∧
    (∀ dx dy : ℚ, deadZoneAdjust dx dy SMOOTH_CONFIG.deadZone = (0, 0)) ∧
    (∀ dx dy d : ℚ, d * d = dx * dx + dy * dy →
      (deadZoneAdjust dx dy d).1 ^ 2 + (deadZoneAdjust dx dy d).2 ^ 2 =
        deadZoneOutMagnitude d ^ 2) ∧
    (∀ d : ℚ, deadZoneOutMagnitude d = max 0 (d - SMOOTH_CONFIG.deadZone)) ∧
    Continuous deadZoneOutMagnitude := by
  refine ⟨?_, ?_, ?_, ?_, deadZoneOutMagnitude_eq_max, ?_⟩
  · intro dx dy d h
    unfold deadZoneAdjust
    rw [if_pos h]
  · intro dx dy d h
    unfold deadZoneAdjust
    rw [if_neg (not_lt.2 h), max_eq_right (by linarith)]
  · intro dx dy
    unfold deadZoneAdjust
    rw [if_neg (lt_irrefl _)]
    simp
  · intro dx dy d hd
    unfold deadZoneAdjust deadZoneOutMagnitude
    by_cases hlt : d < SMOOTH_CONFIG.deadZone
    · rw [if_pos hlt, if_pos hlt]
      simp
    · rw [if_neg hlt, if_neg hlt]
      have h1 : (dx * (max 0 (d - SMOOTH_CONFIG.deadZone) / d)) ^ 2 +
          (dy * (max 0 (d - SMOOTH_CONFIG.deadZone) / d)) ^ 2 =
          (dx * dx + dy * dy) * (max 0 (d - SMOOTH_CONFIG.deadZone) / d) ^ 2 := by
        ring
      calc (dx * (max 0 (d - SMOOTH_CONFIG.deadZone) / d),
              dy * (max 0 (d - SMOOTH_CONFIG.deadZone) / d)).1 ^ 2 +
            (dx * (max 0 (d - SMOOTH_CONFIG.deadZone) / d),
              dy * (max 0 (d - SMOOTH_CONFIG.deadZone) / d)).2 ^ 2
          = (dx * dx + dy * dy) * (max 0 (d - SMOOTH_CONFIG.deadZone) / d) ^ 2 := h1
        _ = (d * d) * (max 0 (d - SMOOTH_CONFIG.deadZone) / d) ^ 2 := by rw [hd]
        _ = (d * (max 0 (d - SMOOTH_CONFIG.deadZone) / d)) ^ 2 := by ring
  · rw [show deadZoneOutMagnitude = fun d => max 0 (d - SMOOTH_CONFIG.deadZone) from
      funext deadZoneOutMagnitude_eq_max]
    exact continuous_const.max (continuous_id.sub continuous_const)

/-- Witness for C7: inside the dead zone at magnitude `0.004`, outside at
magnitude `0.01`, and the 3-4-5 offset `(0.006, 0.008)` of magnitude `0.01`. -/
theorem deadZone_boundary_spec_witness :
    deadZoneAdjust 0 (1/250) (1/250) = (0, 0) ∧
    deadZoneAdjust 0 (1/100) (1/100) =
      (0 * ((1/100 - SMOOTH_CONFIG.deadZone) / (1/100)),
       (1/100) * ((1/100 - SMOOTH_CONFIG.deadZone) / (1/100))) ∧
    (deadZoneAdjust (3/500) (4/500) (1/100)).1 ^ 2 +
      (deadZoneAdjust (3/500) (4/500) (1/100)).2 ^ 2 =
      deadZoneOutMagnitude (1/100) ^ 2 := by
  refine ⟨deadZone_boundary_spec.1 0 (1/250) (1/250) ?_,
    deadZone_boundary_spec.2.1 0 (1/100) (1/100) ?_,
    deadZone_boundary_spec.2.2.2.1 (3/500) (4/500) (1/100) ?_⟩ <;>
    norm_num [SMOOTH_CONFIG]

/-- Left-wink block: a left click is emitted exactly when the wink condition
and cooldown pass, in which case the cooldown timestamp is set to `now`. -/
theorem leftWinkStep_char (lear rear t : ℚ) (s : AppState) :
    ((leftWinkStep lear rear t s).2.any isLeftClickCmd = true →
      s.lastLeftClick + s.winkCooldown < t ∧
      (leftWinkStep lear rear t s).1.lastLeftClick = t) ∧
    ((leftWinkStep lear rear t s).2.any isLeftClickCmd = false →
      (leftWinkStep lear rear t s).1.lastLeftClick = s.lastLeftClick) ∧
    (leftWinkStep lear rear t s).1.winkCooldown = s.winkCooldown := by
  unfold leftWinkStep
  split_ifs
  all_goals simp_all [isLeftClickCmd]
  all_goals linarith

/-- Right-wink block: never emits a left click and leaves the left cooldown
state untouched. -/
theorem rightWinkStep_char (lear rear t : ℚ) (s : AppState) :
    (rightWinkStep lear rear t s).2.any isLeftClickCmd = false ∧
    (rightWinkStep lear rear t s).1.lastLeftClick = s.lastLeftClick ∧
    (rightWinkStep lear rear t s).1.winkCooldown = s.winkCooldown := by
  unfold rightWinkStep
  split_ifs
  all_goals simp_all [isLeftClickCmd]

/-- `detectWinks` left-click characterization: a left click is emitted
exactly under the left block's condition; the left cooldown timestamp
becomes `now` on a click and is unchanged otherwise; `winkCooldown` is
never modified. -/
theorem detectWinks_left_char (lear rear t : ℚ) (s : AppState) :
    ((detectWinks lear rear t s).2.any isLeftClickCmd = true →
      s.lastLeftClick + s.winkCooldown < t ∧
      (detectWinks lear rear t s).1.lastLeftClick = t) ∧
    ((detectWinks lear rear t s).2.any isLeftClickCmd = false →
      (detectWinks lear rear t s).1.lastLeftClick = s.lastLeftClick) ∧
    (detectWinks lear rear t s).1.winkCooldown = s.winkCooldown := by
  have hl := leftWinkStep_char lear rear t s
  have hr := rightWinkStep_char lear rear t (leftWinkStep lear rear t s).1
  unfold detectWinks
  simp only [List.any_append, hr.1, Bool.or_false, hr.2.1, hr.2.2]
  exact hl

/-- The left-click cooldown timestamp never decreases across a
`detectWinks` call (given a nonnegative cooldown). -/
theorem detectWinks_lastLeftClick_mono (lear rear t : ℚ) (s : AppState)
    (h0 : 0 ≤ s.winkCooldown) :
    s.lastLeftClick ≤ (detectWinks lear rear t s).1.lastLeftClick := by
  have hc := detectWinks_left_char lear rear t s
  cases hany : (detectWinks lear rear t s).2.any isLeftClickCmd with
  | false => rw [hc.2.1 hany]
  | true =>
      obtain ⟨hlt, heq⟩ := hc.1 hany
      rw [heq]
      linarith

/-- Membership in `cmdTimes`. -/
theorem mem_cmdTimes {p : Cmd → Bool} {tr : List (ℚ × List Cmd)} {b : ℚ} :
    b ∈ cmdTimes p tr ↔ ∃ cmds, (b, cmds) ∈ tr ∧ cmds.any p = true := by
  simp only [cmdTimes, List.mem_map, List.mem_filter]
  constructor
  · rintro ⟨⟨t, cmds⟩, ⟨hmem, hany⟩, rfl⟩
    exact ⟨cmds, hmem, hany⟩
  · rintro ⟨cmds, hmem, hany⟩
    exact ⟨(b, cmds), ⟨hmem, hany⟩, rfl⟩

/-- `cmdTimes` on a cons. -/
theorem cmdTimes_cons (p : Cmd → Bool) (t : ℚ) (cmds : List Cmd)
    (tr : List (ℚ × List Cmd)) :
    cmdTimes p ((t, cmds) :: tr) =
      if cmds.any p then t :: cmdTimes p tr else cmdTimes p tr := by
  simp only [cmdTimes, List.filter_cons]
  cases cmds.any p <;> simp

/-- Any left click in a wink run fires strictly later than the starting
cooldown timestamp plus the cooldown. -/
theorem winkTrace_left_lb (frames : List WinkFrame) (s : AppState)
    (h0 : 0 ≤ s.winkCooldown) (t : ℚ) (cmds : List Cmd)
    (hmem : (t, cmds) ∈ (winkTrace frames s).2)
    (hany : cmds.any isLeftClickCmd = true) :
    s.lastLeftClick + s.winkCooldown < t := by
  induction frames generalizing s with
  | nil => simp [winkTrace] at hmem
  | cons f rest ih =>
      obtain ⟨lear, rear, t0⟩ := f
      simp only [winkTrace, List.mem_cons] at hmem
      have hc := detectWinks_left_char lear rear t0 s
      rcases hmem with heq | htail
      · have ht : t = t0 := congrArg Prod.fst heq
        have hcm : cmds = (detectWinks lear rear t0 s).2 := congrArg Prod.snd heq
        subst ht
        rw [hcm] at hany
        exact (hc.1 hany).1
      · have h0' : 0 ≤ (detectWinks lear rear t0 s).1.winkCooldown := hc.2.2 ▸ h0
        have hb := ih (detectWinks lear rear t0 s).1 h0' htail
        have hmono := detectWinks_lastLeftClick_mono lear rear t0 s h0
        rw [hc.2.2] at hb
        linarith

/-- Left clicks in a wink run are pairwise separated by more than the
cooldown. -/
theorem winkTrace_left_pairwise (frames : List WinkFrame) (s : AppState)
    (c : ℚ) (hc : s.winkCooldown = c) (h0 : 0 ≤ c) :
    List.Pairwise (fun a b => a + c < b)
      (cmdTimes isLeftClickCmd (winkTrace frames s).2) := by
  induction frames generalizing s with
  | nil => simp [winkTrace, cmdTimes]
  | cons f rest ih =>
      obtain ⟨lear, rear, t0⟩ := f
      have hch := detectWinks_left_char lear rear t0 s
      have hcd' : (detectWinks lear rear t0 s).1.winkCooldown = c := hch.2.2.trans hc
      simp only [winkTrace, cmdTimes_cons]
      cases hany : (detectWinks lear rear t0 s).2.any isLeftClickCmd with
      | false => exact ih _ hcd'
      | true =>
          rw [if_pos rfl]
          refine List.Pairwise.cons ?_ (ih _ hcd')
          intro b hb
          obtain ⟨cmds, hmem, hany'⟩ := mem_cmdTimes.1 hb
          have hlb := winkTrace_left_lb rest (detectWinks lear rear t0 s).1
            (by rw [hcd']; exact h0) b cmds hmem hany'
          rw [hcd', (hch.1 hany).2] at hlb
          exact hlb

/-- C3: for the EAR sequence [open, open, closed, closed, closed, open] on
the left eye with the right eye open throughout, exactly one left click is
emitted, on the frame of the open→closed transition; and in any run with
the 600ms cooldown, left clicks are pairwise separated by more than 600ms,
so a sustained wink can never fire twice inside the cooldown window. -/
theorem wink_edge_trigger_spec :
    ((winkTrace [(3/10, 3/10, 100000), (3/10, 3/10, 100033), (1/10, 3/10, 100066),
        (1/10, 3/10, 100099), (1/10, 3/10, 100132), (3/10, 3/10, 100165)]
        initialState).2.map Prod.snd =
      [[], [], [Cmd.click Button.left], [], [], []]) ∧
    (∀ (frames : List WinkFrame) (s : AppState), s.winkCooldown = 600 →
      List.Pairwise (fun a b => a + 600 < b)
        (cmdTimes isLeftClickCmd (winkTrace frames s).2)) := by
  constructor
  · norm_num [winkTrace, detectWinks, leftWinkStep, rightWinkStep, winkThreshold,
      openThreshold, initialState]
  · intro frames s hc
    exact winkTrace_left_pairwise frames s 600 hc (by norm_num)

/-- Witness for C3's cooldown part at a concrete run from the initial
state (whose `winkCooldown` is the literal 600). -/
theorem wink_edge_trigger_spec_witness :
    List.Pairwise (fun a b => a + 600 < b)
      (cmdTimes isLeftClickCmd
        (winkTrace [(3/10, 3/10, 100000), (1/10, 3/10, 100700)] initialState).2) :=
  wink_edge_trigger_spec.2 [(3/10, 3/10, 100000), (1/10, 3/10, 100700)]
    initialState rfl

/-- Drag-relevant behaviour of one `moveCursor` call: the drag flag after
the call tracks `mouthOpen > 15`, and the emitted drag commands are a
`mousedown` exactly on a rising edge and a `mouseup` exactly on a falling
edge. -/
theorem moveCursor_drag_char (sqrtQ : ℚ → ℚ) (now : ℚ) (nose : ℚ × ℚ) (mo : ℚ)
    (s : AppState) :
    (moveCursor sqrtQ now nose mo s).1.isDragging = decide (mo > 15) ∧
    (moveCursor sqrtQ now nose mo s).2.filter isDragCmd =
      (if mo > 15 then (if s.isDragging = true then [] else [Cmd.mousedown])
       else (if s.isDragging = true then [Cmd.mouseup] else [])) := by
  unfold moveCursor
  split_ifs
  all_goals simp_all [isDragCmd]
  all_goals intro a ha
  all_goals split at ha
  all_goals simp_all

/-- `dragCmds` on a cons. -/
theorem dragCmds_cons (t : ℚ) (cmds : List Cmd) (tr : List (ℚ × List Cmd)) :
    dragCmds ((t, cmds) :: tr) = cmds.filter isDragCmd ++ dragCmds tr := by
  simp [dragCmds]

/-- The drag commands of any `moveCursor` run alternate strictly, starting
relative to the initial drag flag. -/
theorem processTrace_altChk (sqrtQ : ℚ → ℚ) (frames : List Frame) (s : AppState) :
    altChk s.isDragging (dragCmds (processTrace sqrtQ frames s).2) = true := by
  induction frames generalizing s with
  | nil => simp [processTrace, dragCmds, altChk]
  | cons f rest ih =>
      obtain ⟨now, nose, mo⟩ := f
      have hd := moveCursor_drag_char sqrtQ now nose mo s
      have ih' := ih (moveCursor sqrtQ now nose mo s).1
      rw [hd.1] at ih'
      simp only [processTrace, dragCmds_cons, hd.2]
      by_cases hmo : mo > 15
      · rw [if_pos hmo]
        rw [decide_eq_true hmo] at ih'
        cases hds : s.isDragging with
        | false => simpa [altChk, hds] using ih'
        | true => simpa [altChk, hds] using ih'
      · rw [if_neg hmo]
        rw [decide_eq_false hmo] at ih'
        cases hds : s.isDragging with
        | false => simpa [altChk, hds] using ih'
        | true => simpa [altChk, hds] using ih'

/-- In an alternating command list starting in the dragging state, every
`mousedown` is preceded by an earlier `mouseup`. -/
theorem up_before_down (l : List Cmd) (h : altChk true l = true) (m : ℕ)
    (hm : l[m]? = some Cmd.mousedown) :
    ∃ k, k < m ∧ l[k]? = some Cmd.mouseup := by
  cases l with
  | nil => simp at hm
  | cons c l' =>
      cases c with
      | mouseup =>
          cases m with
          | zero => simp at hm
          | succ m' => exact ⟨0, Nat.succ_pos _, by simp⟩
      | mousedown => simp [altChk] at h
      | moveTo x y => simp [altChk] at h
      | click b => simp [altChk] at h

/-- An alternation-checked command list never contains two `mousedown`s
without a `mouseup` strictly between them. -/
theorem altChk_no_double_down (l : List Cmd) (d : Bool) (h : altChk d l = true) :
    ∀ i j : ℕ, i < j → l[i]? = some Cmd.mousedown → l[j]? = some Cmd.mousedown →
      ∃ k : ℕ, i < k ∧ k < j ∧ l[k]? = some Cmd.mouseup := by
  induction l generalizing d with
  | nil => intro i j hij hi hj; simp at hi
  | cons c l' ih =>
      intro i j hij hi hj
      cases d with
      | false =>
          cases c with
          | mousedown =>
              have h' : altChk true l' = true := by simpa [altChk] using h
              cases i with
              | zero =>
                  obtain ⟨j', rfl⟩ : ∃ j', j = j' + 1 := ⟨j - 1, by omega⟩
                  rw [List.getElem?_cons_succ] at hj
                  obtain ⟨k', hk'm, hk'⟩ := up_before_down l' h' j' hj
                  exact ⟨k' + 1, Nat.succ_pos _, by omega, by simpa using hk'⟩
              | succ i' =>
                  obtain ⟨j', rfl⟩ : ∃ j', j = j' + 1 := ⟨j - 1, by omega⟩
                  rw [List.getElem?_cons_succ] at hi hj
                  obtain ⟨k', hik, hkj, hk'⟩ := ih true h' i' j' (by omega) hi hj
                  exact ⟨k' + 1, by omega, by omega, by simpa using hk'⟩
          | mouseup => simp [altChk] at h
          | moveTo x y => simp [altChk] at h
          | click b => simp [altChk] at h
      | true =>
          cases c with
          | mouseup =>
              have h' : altChk false l' = true := by simpa [altChk] using h
              cases i with
              | zero => simp at hi
              | succ i' =>
                  obtain ⟨j', rfl⟩ : ∃ j', j = j' + 1 := ⟨j - 1, by omega⟩
                  rw [List.getElem?_cons_succ] at hi hj
                  obtain ⟨k', hik, hkj, hk'⟩ := ih false h' i' j' (by omega) hi hj
                  exact ⟨k' + 1, by omega, by omega, by simpa using hk'⟩
          | mousedown => simp [altChk] at h
          | moveTo x y => simp [altChk] at h
          | click b => simp [altChk] at h

/-- A mouth-openness sequence crossing the threshold up then down, run from
an idle drag state, emits exactly one `mousedown` on the rising edge and one
`mouseup` on the falling edge. -/
theorem crossing_emits_one_down_one_up (sqrtQ : ℚ → ℚ) (t1 t2 t3 t4 : ℚ)
    (n1 n2 n3 n4 : ℚ × ℚ) (m1 m2 m3 m4 : ℚ) (s : AppState)
    (hs : s.isDragging = false)
    (h1 : ¬ m1 > 15) (h2 : m2 > 15) (h3 : m3 > 15) (h4 : ¬ m4 > 15) :
    (processTrace sqrtQ [(t1, n1, m1), (t2, n2, m2), (t3, n3, m3), (t4, n4, m4)] s).2.map
        (fun e => e.2.filter isDragCmd) =
      [[], [Cmd.mousedown], [], [Cmd.mouseup]] := by
  have c1 := moveCursor_drag_char sqrtQ t1 n1 m1 s
  have e1 : (moveCursor sqrtQ t1 n1 m1 s).1.isDragging = false := by
    rw [c1.1, decide_eq_false h1]
  have f1 : (moveCursor sqrtQ t1 n1 m1 s).2.filter isDragCmd = [] := by
    rw [c1.2, if_neg h1, if_neg (by rw [hs]; simp)]
  have c2 := moveCursor_drag_char sqrtQ t2 n2 m2 (moveCursor sqrtQ t1 n1 m1 s).1
  have e2 : (moveCursor sqrtQ t2 n2 m2 (moveCursor sqrtQ t1 n1 m1 s).1).1.isDragging = true := by
    rw [c2.1, decide_eq_true h2]
  have f2 : (moveCursor sqrtQ t2 n2 m2 (moveCursor sqrtQ t1 n1 m1 s).1).2.filter isDragCmd =
      [Cmd.mousedown] := by
    rw [c2.2, if_pos h2, if_neg (by rw [e1]; simp)]
  have c3 := moveCursor_drag_char sqrtQ t3 n3 m3
    (moveCursor sqrtQ t2 n2 m2 (moveCursor sqrtQ t1 n1 m1 s).1).1
  have e3 : (moveCursor sqrtQ t3 n3 m3
      (moveCursor sqrtQ t2 n2 m2 (moveCursor sqrtQ t1 n1 m1 s).1).1).1.isDragging = true := by
    rw [c3.1, decide_eq_true h3]
  have f3 : (moveCursor sqrtQ t3 n3 m3
      (moveCursor sqrtQ t2 n2 m2 (moveCursor sqrtQ t1 n1 m1 s).1).1).2.filter isDragCmd = [] := by
    rw [c3.2, if_pos h3, if_pos e2]
  have c4 := moveCursor_drag_char sqrtQ t4 n4 m4
    (moveCursor sqrtQ t3 n3 m3 (moveCursor sqrtQ t2 n2 m2 (moveCursor sqrtQ t1 n1 m1 s).1).1).1
  have f4 : (moveCursor sqrtQ t4 n4 m4
      (moveCursor sqrtQ t3 n3 m3
        (moveCursor sqrtQ t2 n2 m2 (moveCursor sqrtQ t1 n1 m1 s).1).1).1).2.filter isDragCmd =
      [Cmd.mouseup] := by
    rw [c4.2, if_neg h4, if_pos e3]
  simp only [processTrace, List.map_cons, List.map_nil]
  rw [f1, f2, f3, f4]

/-- C4: drag state machine symmetry.  A mouth-openness sequence crossing
the threshold 15 upward then downward emits exactly one `mousedown` (on the
rising edge) and then exactly one `mouseup` (on the falling edge); the drag
commands of any frame sequence alternate strictly from the initial flag; and
from the idle state two `mousedown`s never occur without a `mouseup`
strictly between them. -/
theorem drag_symmetry_spec :
    (∀ (sqrtQ : ℚ → ℚ) (t1 t2 t3 t4 : ℚ) (n1 n2 n3 n4 : ℚ × ℚ)
        (m1 m2 m3 m4 : ℚ) (s : AppState), s.isDragging = false →
      ¬ m1 > 15 → m2 > 15 → m3 > 15 → ¬ m4 > 15 →
      (processTrace sqrtQ [(t1, n1, m1), (t2, n2, m2), (t3, n3, m3), (t4, n4, m4)] s).2.map
          (fun e => e.2.filter isDragCmd) =
        [[], [Cmd.mousedown], [], [Cmd.mouseup]]) ∧
    (∀ (sqrtQ : ℚ → ℚ) (frames : List Frame) (s : AppState),
      altChk s.isDragging (dragCmds (processTrace sqrtQ frames s).2) = true) ∧
    (∀ (sqrtQ : ℚ → ℚ) (frames : List Frame) (s : AppState), s.isDragging = false →
      ∀ i j : ℕ, i < j →
        (dragCmds (processTrace sqrtQ frames s).2)[i]? = some Cmd.mousedown →
        (dragCmds (processTrace sqrtQ frames s).2)[j]? = some Cmd.mousedown →
        ∃ k : ℕ, i < k ∧ k < j ∧
          (dragCmds (processTrace sqrtQ frames s).2)[k]? = some Cmd.mouseup) := by
  refine ⟨crossing_emits_one_down_one_up, processTrace_altChk, ?_⟩
  intro sqrtQ frames s hs i j hij hi hj
  exact altChk_no_double_down _ s.isDragging (processTrace_altChk sqrtQ frames s)
    i j hij hi hj

/-- Witness for C4 at a concrete threshold-crossing run from the initial
state. -/
theorem drag_symmetry_spec_witness :
    (processTrace (fun x => x)
      [(0, (1/2, 1/2), 0), (8, (1/2, 1/2), 20), (16, (1/2, 1/2), 20), (24, (1/2, 1/2), 0)]
      initialState).2.map (fun e => e.2.filter isDragCmd) =
      [[], [Cmd.mousedown], [], [Cmd.mouseup]] :=
  drag_symmetry_spec.1 (fun x => x) 0 8 16 24 (1/2, 1/2) (1/2, 1/2) (1/2, 1/2)
    (1/2, 1/2) 0 20 20 0 initialState rfl (by norm_num) (by norm_num)
    (by norm_num) (by norm_num)


theorem moveCursor_send_char (sqrtQ : ℚ → ℚ) (now : ℚ) (nose : ℚ × ℚ) (mo : ℚ)
    (s : AppState) :
    ((moveCursor sqrtQ now nose mo s).1.lastMouseUpdate =
      if UPDATE_INTERVAL ≤ now - s.lastMouseUpdate then now else s.lastMouseUpdate) ∧
    ((moveCursor sqrtQ now nose mo s).2.any isMoveCmd = true →
      UPDATE_INTERVAL ≤ now - s.lastMouseUpdate ∧
      (SMOOTH_CONFIG.jitterThreshold ≤
          sqrtQ (((pipelineOutput sqrtQ now nose s).2.1 - s.lastSentX) *
                  ((pipelineOutput sqrtQ now nose s).2.1 - s.lastSentX) +
                ((pipelineOutput sqrtQ now nose s).2.2 - s.lastSentY) *
                  ((pipelineOutput sqrtQ now nose s).2.2 - s.lastSentY)) ∨
        100 < now - s.lastMouseUpdate)) := by
  unfold moveCursor
  split_ifs
  all_goals simp_all [isMoveCmd]
  all_goals refine ⟨?_, ?_⟩
  all_goals first
    | (split
       all_goals rfl)
    | (intro x hx hm
       split at hx
       all_goals simp_all)

theorem moveCursor_lmu_mono (sqrtQ : ℚ → ℚ) (now : ℚ) (nose : ℚ × ℚ) (mo : ℚ)
    (s : AppState) :
    s.lastMouseUpdate ≤ (moveCursor sqrtQ now nose mo s).1.lastMouseUpdate := by
  rw [(moveCursor_send_char sqrtQ now nose mo s).1]
  split_ifs with h
  · have h8 : (0 : ℚ) ≤ UPDATE_INTERVAL := by norm_num [UPDATE_INTERVAL]
    linarith
  · exact le_refl _

theorem processTrace_send_lb (sqrtQ : ℚ → ℚ) (frames : List Frame) (s : AppState)
    (t : ℚ) (cmds : List Cmd)
    (hmem : (t, cmds) ∈ (processTrace sqrtQ frames s).2)
    (hany : cmds.any isMoveCmd = true) :
    s.lastMouseUpdate + UPDATE_INTERVAL ≤ t := by
  induction frames generalizing s with
  | nil => simp [processTrace] at hmem
  | cons f rest ih =>
      obtain ⟨now, nose, mo⟩ := f
      simp only [processTrace, List.mem_cons] at hmem
      rcases hmem with heq | htail
      · have ht : t = now := congrArg Prod.fst heq
        have hcm : cmds = (moveCursor sqrtQ now nose mo s).2 := congrArg Prod.snd heq
        subst ht
        rw [hcm] at hany
        have := ((moveCursor_send_char sqrtQ t nose mo s).2 hany).1
        linarith
      · have hb := ih (moveCursor sqrtQ now nose mo s).1 htail
        have hmono := moveCursor_lmu_mono sqrtQ now nose mo s
        linarith

theorem processTrace_send_pairwise (sqrtQ : ℚ → ℚ) (frames : List Frame)
    (s : AppState) :
    List.Pairwise (fun a b => a + UPDATE_INTERVAL ≤ b)
      (cmdTimes isMoveCmd (processTrace sqrtQ frames s).2) := by
  induction frames generalizing s with
  | nil => simp [processTrace, cmdTimes]
  | cons f rest ih =>
      obtain ⟨now, nose, mo⟩ := f
      simp only [processTrace, cmdTimes_cons]
      cases hany : (moveCursor sqrtQ now nose mo s).2.any isMoveCmd with
      | false => exact ih _
      | true =>
          rw [if_pos rfl]
          refine List.Pairwise.cons ?_ (ih _)
          intro b hb
          obtain ⟨cmds, hmem, hany'⟩ := mem_cmdTimes.1 hb
          have hlb := processTrace_send_lb sqrtQ rest (moveCursor sqrtQ now nose mo s).1
            b cmds hmem hany'
          have hchar := moveCursor_send_char sqrtQ now nose mo s
          have hgate := (hchar.2 hany).1
          rw [hchar.1, if_pos hgate] at hlb
          exact hlb

theorem processTrace_times (sqrtQ : ℚ → ℚ) (frames : List Frame) (s : AppState) :
    (processTrace sqrtQ frames s).2.map Prod.fst = frames.map (fun f => f.1) := by
  induction frames generalizing s with
  | nil => simp [processTrace]
  | cons f rest ih =>
      obtain ⟨now, nose, mo⟩ := f
      simp [processTrace, ih]

theorem processTrace_burst (sqrtQ : ℚ → ℚ) (frames : List Frame) (s : AppState)
    (a : ℚ) (hw : ∀ f ∈ frames, a ≤ f.1 ∧ f.1 ≤ a + 1) :
    (cmdTimes isMoveCmd (processTrace sqrtQ frames s).2).length ≤ 1 := by
  by_contra hlen
  push_neg at hlen
  have hpw := processTrace_send_pairwise sqrtQ frames s
  have hbound : ∀ b ∈ cmdTimes isMoveCmd (processTrace sqrtQ frames s).2,
      a ≤ b ∧ b ≤ a + 1 := by
    intro b hb
    obtain ⟨cmds, hmem, _⟩ := mem_cmdTimes.1 hb
    have hbt : b ∈ (processTrace sqrtQ frames s).2.map Prod.fst :=
      List.mem_map.2 ⟨(b, cmds), hmem, rfl⟩
    rw [processTrace_times] at hbt
    obtain ⟨f, hf, hfb⟩ := List.mem_map.1 hbt
    exact hfb ▸ hw f hf
  rcases hl : cmdTimes isMoveCmd (processTrace sqrtQ frames s).2 with _ | ⟨t1, _ | ⟨t2, l2⟩⟩
  · rw [hl] at hlen; simp at hlen
  · rw [hl] at hlen; simp at hlen
  · rw [hl] at hpw hbound
    have h12 : t1 + UPDATE_INTERVAL ≤ t2 :=
      (List.pairwise_cons.1 hpw).1 t2 (by simp)
    have hb1 := hbound t1 (by simp)
    have hb2 := hbound t2 (by simp)
    have : (UPDATE_INTERVAL : ℚ) ≤ 1 := by linarith [hb1.1, hb2.2]
    norm_num [UPDATE_INTERVAL] at this

/-- C5: output throttling.  The timestamps of `moveTo` dispatches in any
`moveCursor` run are pairwise separated by at least `UPDATE_INTERVAL = 8` ms;
consequently any burst of frames within a window of 1 ms produces at most
one dispatch (well within the rate-cap bound of the claim); and a dispatch
occurs only when the (square-rooted) distance between the new output
position and the last sent position reaches the jitter threshold 5, or more
than 100 ms have elapsed since `lastMouseUpdate` (which is at least the time
of the previous dispatch). -/
theorem output_throttle_spec :
    (∀ (sqrtQ : ℚ → ℚ) (frames : List Frame) (s : AppState),
      List.Pairwise (fun a b => a + UPDATE_INTERVAL ≤ b)
        (cmdTimes isMoveCmd (processTrace sqrtQ frames s).2)) ∧
    (∀ (sqrtQ : ℚ → ℚ) (frames : List Frame) (s : AppState) (a : ℚ),
      (∀ f ∈ frames, a ≤ f.1 ∧ f.1 ≤ a + 1) →
      (cmdTimes isMoveCmd (processTrace sqrtQ frames s).2).length ≤ 1) ∧
    (∀ (sqrtQ : ℚ → ℚ) (now : ℚ) (nose : ℚ × ℚ) (mo : ℚ) (s : AppState),
      (moveCursor sqrtQ now nose mo s).2.any isMoveCmd = true →
      SMOOTH_CONFIG.jitterThreshold ≤
          sqrtQ (((pipelineOutput sqrtQ now nose s).2.1 - s.lastSentX) *
                  ((pipelineOutput sqrtQ now nose s).2.1 - s.lastSentX) +
                ((pipelineOutput sqrtQ now nose s).2.2 - s.lastSentY) *
                  ((pipelineOutput sqrtQ now nose s).2.2 - s.lastSentY)) ∨
        100 < now - s.lastMouseUpdate) :=
  ⟨processTrace_send_pairwise, processTrace_burst,
   fun sqrtQ now nose mo s hany =>
     ((moveCursor_send_char sqrtQ now nose mo s).2 hany).2⟩

/-- Witness for C5: a 3-frame burst within half a millisecond from the
initial state yields at most one dispatch. -/
theorem output_throttle_spec_witness :
    (cmdTimes isMoveCmd
      (processTrace (fun x => x)
        [(100000, (1/2, 1/2), 0), (100000 + 1/4, (1/2, 1/2), 0),
         (100000 + 1/2, (1/2, 1/2), 0)] initialState).2).length ≤ 1 :=
  output_throttle_spec.2.1 (fun x => x)
    [(100000, (1/2, 1/2), 0), (100000 + 1/4, (1/2, 1/2), 0),
     (100000 + 1/2, (1/2, 1/2), 0)] initialState 100000
    (by
      intro f hf
      simp only [List.mem_cons, List.not_mem_nil, or_false] at hf
      rcases hf with rfl | rfl | rfl
      all_goals norm_num)



/-- An element of a buffer after insertion was already present or is the
inserted value. -/
theorem mem_addToBuffer {b : List ℚ} {v : ℚ} {n : ℕ} {x : ℚ}
    (hx : x ∈ addToBuffer b v n) : x ∈ b ∨ x = v := by
  simp only [addToBuffer] at hx
  split at hx
  · have := List.tail_sublist (b ++ [v])
    have hmem := this.subset hx
    simpa using hmem
  · simpa using hx

/-- Insertion into a buffer with positive capacity never yields an empty
buffer. -/
theorem addToBuffer_ne_nil {b : List ℚ} {v : ℚ} {n : ℕ} (hn : 1 ≤ n) :
    addToBuffer b v n ≠ [] := by
  intro hnil
  simp only [addToBuffer] at hnil
  split at hnil
  · rename_i hgt
    simp only [List.length_append, List.length_singleton] at hgt
    have : (b ++ [v]).tail.length = 0 := by rw [hnil]; rfl
    simp only [List.length_tail, List.length_append, List.length_singleton] at this
    omega
  · simp at hnil

/-- The median of a nonempty constant buffer is that constant. -/
theorem getMedian_all_eq {l : List ℚ} {c : ℚ} (h : ∀ x ∈ l, x = c)
    (hne : l ≠ []) : getMedian l = c := by
  have hperm := List.perm_insertionSort (· ≤ ·) l
  have hs : ∀ x ∈ l.insertionSort (· ≤ ·), x = c := fun x hx => h x (hperm.subset hx)
  have hlen : (l.insertionSort (· ≤ ·)).length = l.length := hperm.length_eq
  have hlpos : 0 < l.length := List.length_pos.2 hne
  have hget : ∀ i : ℕ, i < l.length → (l.insertionSort (· ≤ ·)).getD i 0 = c := by
    intro i hi
    rw [List.getD_eq_getElem _ _ (by omega)]
    exact hs _ (List.getElem_mem _)
  have hlen0 : ¬ l.length = 0 := by omega
  simp only [getMedian, if_neg hlen0, hlen]
  split
  · exact hget _ (Nat.div_lt_self hlpos (by norm_num))
  · rw [hget _ (Nat.div_lt_self hlpos (by norm_num)),
      hget _ (by have := Nat.div_lt_self hlpos (show 1 < 2 by norm_num); omega)]
    ring

/-- Feeding a Kalman state its own current estimate leaves the estimate
unchanged. -/
theorem kalmanFilter_fixed (k : KalmanState) (m : ℚ) (h : k.estimate = some m) :
    (kalmanFilter m k).1 = m ∧ (kalmanFilter m k).2.estimate = some m := by
  simp [kalmanFilter, h]

/-- A Bezier step between identical points stays put. -/
theorem bezierInterpolate_const (c t : ℚ) : bezierInterpolate c c c t = c := by
  unfold bezierInterpolate
  ring

/-- With the nose exactly at the calibration reference, the cursor mapping
produces the exact screen center `(960, 540)` (for any sensitivity). -/
theorem computeRawTarget_at_ref (sqrtQ : ℚ → ℚ) (hsq : sqrtQ 0 = 0) (sens : ℚ)
    (n0 : ℚ × ℚ) : computeRawTarget sqrtQ sens n0 n0 = (960, 540) := by
  norm_num [computeRawTarget, deadZoneAdjust, SMOOTH_CONFIG, CONFIG, hsq]



/-- Invariant step for the smoothing pipeline: from a screen-center baseline
state, a frame with the nose at the calibration reference outputs exactly
screen center and preserves the baseline. -/
theorem pipelineOutput_centered (sqrtQ : ℚ → ℚ) (hsq : sqrtQ 0 = 0) (t : ℚ)
    (n0 : ℚ × ℚ) (s : AppState) (h : CenteredAt n0 s) :
    (pipelineOutput sqrtQ t n0 s).2 = (960, 540) ∧
    CenteredAt n0 (pipelineOutput sqrtQ t n0 s).1 := by
  obtain ⟨hbx, hby, hkx, hky, hvx, hvy, hltx, hlty, hsx, hsy, hox, hoy, hlsx, hlsy,
    hcn, hdrag⟩ := h
  have hrt : computeRawTarget sqrtQ s.sensitivity n0 n0 = (960, 540) :=
    computeRawTarget_at_ref sqrtQ hsq s.sensitivity n0
  have hmedx : getMedian (addToBuffer s.rawBufferX 960 RAW_BUFFER_SIZE) = 960 :=
    getMedian_all_eq (fun x hx => (mem_addToBuffer hx).elim (hbx x) id)
      (addToBuffer_ne_nil (by norm_num [RAW_BUFFER_SIZE]))
  have hmedy : getMedian (addToBuffer s.rawBufferY 540 RAW_BUFFER_SIZE) = 540 :=
    getMedian_all_eq (fun y hy => (mem_addToBuffer hy).elim (hby y) id)
      (addToBuffer_ne_nil (by norm_num [RAW_BUFFER_SIZE]))
  have hkfx := kalmanFilter_fixed s.kalmanX 960 hkx
  have hkfy := kalmanFilter_fixed s.kalmanY 540 hky
  have heq : pipelineOutput sqrtQ t n0 s =
      ({ s with
          rawBufferX := addToBuffer s.rawBufferX 960 RAW_BUFFER_SIZE
          rawBufferY := addToBuffer s.rawBufferY 540 RAW_BUFFER_SIZE
          kalmanX := (kalmanFilter 960 s.kalmanX).2
          kalmanY := (kalmanFilter 540 s.kalmanY).2
          velocityX := 0
          velocityY := 0
          lastTargetX := some 960
          lastTargetY := some 540
          lastTargetTime := t
          smoothX := some 960
          smoothY := some 540
          outputX := some 960
          outputY := some 540 }, (960, 540)) := by
    norm_num [pipelineOutput, hcn, hrt, hmedx, hmedy, hltx, hlty, hsx, hsy, hox, hoy,
      hvx, hvy, lerp, bezierInterpolate_const, hkfx.1, hkfy.1]
  rw [heq]
  refine ⟨rfl, ?_⟩
  refine ⟨?_, ?_, hkfx.2, hkfy.2, rfl, rfl, rfl, rfl, rfl, rfl, rfl, rfl,
    hlsx, hlsy, hcn, hdrag⟩
  · intro x hx
    exact (mem_addToBuffer hx).elim (hbx x) id
  · intro y hy
    exact (mem_addToBuffer hy).elim (hby y) id



/-- Invariant step for a full `moveCursor` call at the calibration
reference with the mouth closed: the baseline is preserved and every
emitted command is a `moveTo` of the exact screen center. -/
theorem moveCursor_centered (sqrtQ : ℚ → ℚ) (hsq : sqrtQ 0 = 0) (t : ℚ)
    (n0 : ℚ × ℚ) (s : AppState) (h : CenteredAt n0 s) :
    CenteredAt n0 (moveCursor sqrtQ t n0 0 s).1 ∧
    ∀ c ∈ (moveCursor sqrtQ t n0 0 s).2, c = Cmd.moveTo 960 540 := by
  obtain ⟨hpo2, hpoInv⟩ := pipelineOutput_centered sqrtQ hsq t n0 s h
  obtain ⟨hbx, hby, hkx, hky, hvx, hvy, hltx, hlty, hsx, hsy, hox, hoy, hlsx, hlsy,
    hcn, hdrag⟩ := h
  obtain ⟨hbx', hby', hkx', hky', hvx', hvy', hltx', hlty', hsx', hsy', hox', hoy',
    hlsx', hlsy', hcn', hdrag'⟩ := hpoInv
  have h1 : (pipelineOutput sqrtQ t n0 s).2.1 = 960 := by rw [hpo2]
  have h2 : (pipelineOutput sqrtQ t n0 s).2.2 = 540 := by rw [hpo2]
  have hr960 : round (960 : ℚ) = 960 := by norm_num [round_eq]
  have hr540 : round (540 : ℚ) = 540 := by norm_num [round_eq]
  unfold moveCursor
  norm_num [h1, h2, hlsx, hlsy, hsq, hr960, hr540, hdrag]
  split_ifs with hgate hguard
  all_goals refine ⟨⟨hbx', hby', hkx', hky', hvx', hvy', hltx', hlty', hsx', hsy',
    hox', hoy', rfl, rfl, hcn', rfl⟩, ?_⟩
  all_goals intro c hc
  all_goals simp at hc
  all_goals exact hc

/-- Over any run with the nose held at the calibration reference, every
emitted command is a `moveTo` of the exact screen center. -/
theorem processTrace_centered (sqrtQ : ℚ → ℚ) (hsq : sqrtQ 0 = 0) (n0 : ℚ × ℚ)
    (times : List ℚ) (s : AppState) (h : CenteredAt n0 s) :
    ∀ e ∈ (processTrace sqrtQ (times.map fun t => (t, n0, 0)) s).2,
      ∀ c ∈ e.2, c = Cmd.moveTo 960 540 := by
  induction times generalizing s with
  | nil => intro e he; simp [processTrace] at he
  | cons t rest ih =>
      intro e he
      obtain ⟨hinv, hcmds⟩ := moveCursor_centered sqrtQ hsq t n0 s h
      simp only [List.map_cons, processTrace, List.mem_cons] at he
      rcases he with rfl | htail
      · intro c hc; exact hcmds c hc
      · exact ih _ hinv e htail



/-- C6: completion of `calibrate()` resets the whole smoothing pipeline to
the screen-center baseline (Kalman estimates seeded to center, buffers
cleared, velocities zeroed, smooth/output and last-sent positions at
center, reference captured from the current nose), and if every subsequent
frame holds the nose exactly at the captured reference, every dispatched
cursor command is exactly `moveTo (960, 540)` — the cursor never leaves
screen center. -/
theorem calibration_center_stability (sqrtQ : ℚ → ℚ) (hsq : sqrtQ 0 = 0)
    (now0 : ℚ) (s : AppState) (times : List ℚ) :
    ((calibrateFinish now0 s).1.kalmanX.estimate = some 960 ∧
     (calibrateFinish now0 s).1.kalmanY.estimate = some 540 ∧
     (calibrateFinish now0 s).1.rawBufferX = [] ∧
     (calibrateFinish now0 s).1.rawBufferY = [] ∧
     (calibrateFinish now0 s).1.velocityX = 0 ∧
     (calibrateFinish now0 s).1.velocityY = 0 ∧
     (calibrateFinish now0 s).1.smoothX = some 960 ∧
     (calibrateFinish now0 s).1.smoothY = some 540 ∧
     (calibrateFinish now0 s).1.outputX = some 960 ∧
     (calibrateFinish now0 s).1.outputY = some 540 ∧
     (calibrateFinish now0 s).1.lastSentX = 960 ∧
     (calibrateFinish now0 s).1.lastSentY = 540 ∧
     (calibrateFinish now0 s).1.calibrationNose = some s.currentNose ∧
     (calibrateFinish now0 s).2 = [Cmd.moveTo 960 540]) ∧
    (s.isDragging = false →
      ∀ e ∈ (processTrace sqrtQ (times.map fun t => (t, s.currentNose, 0))
          (calibrateFinish now0 s).1).2, ∀ c ∈ e.2, c = Cmd.moveTo 960 540) := by
  constructor
  · norm_num [calibrateFinish, CONFIG]
  · intro hdrag
    refine processTrace_centered sqrtQ hsq s.currentNose times _ ?_
    refine ⟨by simp [calibrateFinish], by simp [calibrateFinish], ?_, ?_, rfl, rfl,
      ?_, ?_, ?_, ?_, ?_, ?_, ?_, ?_, rfl, hdrag⟩
    all_goals norm_num [calibrateFinish, CONFIG]

/-- Witness for C6: two concrete frames at the reference after calibrating
from the initial state; every dispatched command is `moveTo (960, 540)`. -/
theorem calibration_center_stability_witness :
    ((processTrace (fun _ => 0)
        (([100016, 100200] : List ℚ).map fun t => (t, initialState.currentNose, 0))
        (calibrateFinish 100000 initialState).1).2.all
      (fun e => e.2.all (fun c => decide (c = Cmd.moveTo 960 540)))) = true := by
  have h := (calibration_center_stability (fun _ => 0) rfl 100000 initialState
    [100016, 100200]).2 rfl
  simp only [List.all_eq_true, decide_eq_true_eq]
  exact fun e he c hc => h e he c hc

end FaceControl
